import Mathlib

/-!
Verification of the face-detection pipeline (`face_detector.py`, `app.py`,
`config.py`) against its natural-language specification.

Shallow embedding conventions:
* Python wall-clock times and floats are modelled as rationals (`ℚ`);
  Python ints as `ℤ` (counters that are provably non-negative as `ℕ`).
* External collaborators (the OpenCV codec `cv2.imdecode`, the base64
  codec, and the opaque cascade classifier) are parameters of the
  embedding (`DecodeEnv`), per the spec they are interface boundaries.
* The `asyncio` websocket handler suspends only at `receive_json` /
  `send_json`; everything between two awaits runs atomically on the
  single event loop, so handling one inbound message is one atomic step.
-/

/-! ### FPS tracker (`face_detector.py`, `FaceDetectionApp.__init__` lines 72-75
and `_update_fps` lines 77-92) -/

/-- State of the FPS measurement: `fps_start_time`, `fps_frame_count`,
`current_fps` (`face_detector.py` lines 73-75). -/
structure FpsState where
  fpsStartTime : ℚ
  fpsFrameCount : ℕ
  currentFps : ℚ
  deriving Repr, DecidableEq

/-- `FaceDetectionApp.__init__` lines 73-75: the window start is the
construction time, the counter and the held FPS value start at 0. -/
def initFps (t0 : ℚ) : FpsState := ⟨t0, 0, 0⟩

/-- `FaceDetectionApp._update_fps` (`face_detector.py` lines 77-92), with the
current wall-clock time `now` passed explicitly.  Increments the counter,
and when at least one second has elapsed since the window start, recomputes
`current_fps = fps_frame_count / elapsed`, zeroes the counter and restarts
the window at `now`.  Returns the (possibly updated) `current_fps`. -/
def updateFps (now : ℚ) (s : FpsState) : FpsState × ℚ :=
  let fc := s.fpsFrameCount + 1
  let elapsed := now - s.fpsStartTime
  if 1 ≤ elapsed then
    let fps := (fc : ℚ) / elapsed
    (⟨now, 0, fps⟩, fps)
  else
    (⟨s.fpsStartTime, fc, s.currentFps⟩, s.currentFps)

/-- Run `_update_fps` at each time in `ts` in order, collecting the returned
FPS values. -/
def runFps : List ℚ → FpsState → List ℚ × FpsState
  | [], s => ([], s)
  | t :: ts, s =>
    let (s', v) := updateFps t s
    let (vs, sEnd) := runFps ts s'
    (v :: vs, sEnd)

/-! ### Video-mode progress fraction (`face_detector.py`, `run_video`
line 328: `progress = frame_count / total_frames if total_frames > 0 else 0`) -/

/-- The rendered progress fraction of `run_video`: `frame_count` is the number
of frames read so far (a Python int counter, non-negative), `total_frames`
comes from `int(cap.get(cv2.CAP_PROP_FRAME_COUNT))` and may be zero or
negative for a misreporting container. -/
def progress (frameCount : ℕ) (totalFrames : ℤ) : ℚ :=
  if 0 < totalFrames then (frameCount : ℚ) / (totalFrames : ℚ) else 0

/-! ### Base64 frame payload stripping (`app.py`, `detect_base64` lines 143-144
and `websocket_detect` lines 210-211):
`if "," in image_data: image_data = image_data.split(",")[1]`

Python strings are embedded as `List Char`; `splitComma` is Python's
`str.split(",")` (splits at every comma, keeps empty fields). -/

/-- Python `s.split(",")`: the list of maximal comma-free fields of `s`
(`"a,,b".split(",") == ["a", "", "b"]`, `"".split(",") == [""]`). -/
def splitComma : List Char → List (List Char)
  | [] => [[]]
  | c :: cs =>
    if c = ',' then [] :: splitComma cs
    else
      match splitComma cs with
      | [] => [[c]]
      | t :: ts => (c :: t) :: ts

/-- The frame-payload stripping performed identically at `app.py` lines
143-144 and 210-211: when the payload contains a comma, replace it with
`split(",")[1]` — the field between the first and the second comma —
otherwise leave it unchanged. -/
def stripFrameData (s : List Char) : List Char :=
  if ',' ∈ s then (splitComma s).getD 1 [] else s

/-- Modelled from the spec's words for comparison (§6, C9): "the prefix up
to the first comma is stripped and the remainder is base64-decoded" — the
suffix strictly after the FIRST comma; a payload with no comma is kept
whole. -/
def afterFirstComma : List Char → List Char
  | [] => []
  | c :: cs => if c = ',' then cs else afterFirstComma cs

/-- Modelled from the spec's words (§6, C9): strip everything up to and
including the first comma when a comma is present. -/
def stripSpecFirstComma (s : List Char) : List Char :=
  if ',' ∈ s then afterFirstComma s else s

/-! ### Websocket realtime sessions (`app.py`, `websocket_detect` lines 182-239)

External collaborators are parameters: `b64decode` (Python `base64.b64decode`,
`none` = raises `binascii.Error`), `imdecode` (`cv2.imdecode`, `none` = returns
`None`), and the opaque cascade classifier `detectFaces`
(`FaceDetector.detect_faces`).  Byte buffers and decoded images are opaque
handles. -/

/-- A detected rectangle `(x, y, w, h)`. -/
abbrev Rect := ℤ × ℤ × ℤ × ℤ

/-- The external decode/detect boundary (spec §1, §6): base64 decoding,
image decoding, and the opaque classifier.  `detectFaces img sf mn` is the
pure detection result for the given scale factor and min-neighbors. -/
structure DecodeEnv where
  b64decode : List Char → Option (List ℕ)
  imdecode : List ℕ → Option ℕ
  detectFaces : ℕ → ℚ → ℤ → List Rect

/-- One inbound websocket message (`app.py` lines 197-207): a JSON mapping
with optional keys `scale_factor`, `min_neighbors`, `frame`. -/
structure Msg where
  scaleFactor : Option ℚ := none
  minNeighbors : Option ℤ := none
  frame : Option (List Char) := none

/-- One outbound websocket response (`app.py` lines 229-234). -/
structure Resp where
  facesCount : ℕ
  faces : List Rect
  deriving Repr, DecidableEq

/-- Result of handling one inbound message within the `while True` loop
(`app.py` lines 195-234): the session-local `(scale_factor, min_neighbors)`
after the message, the shared global detector's parameter state after the
message, the responses sent, the parameter pairs actually passed to
`detect_faces`, and whether the loop is still alive (`false` = an exception
escaped to the handler at lines 238-239, ending the session). -/
structure StepOut where
  locals : ℚ × ℤ
  det : ℚ × ℤ
  sent : List Resp
  dets : List (ℚ × ℤ)
  alive : Bool

/-- Handling of one inbound message, `app.py` lines 197-234.  Parameter keys
are applied to the session locals first (lines 200-203).  If a frame is
present it is stripped (lines 210-211) and base64-decoded (line 213; failure
raises, so the loop dies with nothing sent); `cv2.imdecode` returning `None`
silently skips the frame (line 217 guard); otherwise the GLOBAL detector's
parameters are set from the session locals (lines 219-222), `detect_faces`
runs, and one response is sent (lines 229-234). -/
def wsHandleMsg (env : DecodeEnv) (m : Msg) (locals det : ℚ × ℤ) : StepOut :=
  let l1 : ℚ × ℤ := (m.scaleFactor.getD locals.1, m.minNeighbors.getD locals.2)
  match m.frame with
  | none => ⟨l1, det, [], [], true⟩
  | some p =>
    match env.b64decode (stripFrameData p) with
    | none => ⟨l1, det, [], [], false⟩
    | some bs =>
      match env.imdecode bs with
      | none => ⟨l1, det, [], [], true⟩
      | some img =>
        let det' := l1
        let faces := env.detectFaces img det'.1 det'.2
        ⟨l1, det', [⟨faces.length, faces⟩], [det'], true⟩

/-- Accumulated observable behaviour of one session run. -/
structure RunOut where
  sent : List Resp
  dets : List (ℚ × ℤ)
  locals : ℚ × ℤ
  det : ℚ × ℤ
  alive : Bool

/-- The `while True` receive loop of `websocket_detect` over a finite inbound
message list: messages are handled in order until an exception kills the
session (remaining messages are never received). -/
def wsRun (env : DecodeEnv) : List Msg → ℚ × ℤ → ℚ × ℤ → RunOut
  | [], locals, det => ⟨[], [], locals, det, true⟩
  | m :: ms, locals, det =>
    let o := wsHandleMsg env m locals det
    if o.alive then
      let r := wsRun env ms o.locals o.det
      ⟨o.sent ++ r.sent, o.dets ++ r.dets, r.locals, r.det, r.alive⟩
    else
      ⟨o.sent, o.dets, o.locals, o.det, false⟩

/-- The session-local parameter defaults of `websocket_detect`
(`app.py` lines 191-192): `scale_factor = 1.1`, `min_neighbors = 5`. -/
def wsInitLocals : ℚ × ℤ := (11 / 10, 5)

/-! ### Concurrent sessions over the shared global detector
(`app.py` line 51: `detector = FaceDetector()` is module-global; every
websocket session's lines 219-225 read and write this one instance).

Sessions are identified by `ℕ`.  A schedule interleaves whole inbound
messages of the open sessions; one message is one atomic step because the
handler has no `await` between `receive_json` and `send_json`. -/

/-- Server state: the ONE shared global detector's parameter pair
(`app.py` line 51), each session's local `(scale_factor, min_neighbors)`
(lines 191-192), each session's liveness, and the log of detection
parameter pairs tagged with the session that ran the detection. -/
structure SrvState where
  det : ℚ × ℤ
  locals : ℕ → ℚ × ℤ
  alive : ℕ → Bool
  dets : List (ℕ × (ℚ × ℤ))

/-- Fresh server: every session has the default locals, the shared detector
holds `d0` (the `FaceDetector()` construction-time parameters). -/
def initSrv (d0 : ℚ × ℤ) : SrvState :=
  ⟨d0, fun _ => wsInitLocals, fun _ => true, []⟩

/-- One schedule step: session `sid` (if still connected) handles message
`m`, reading and writing the shared global detector. -/
def srvStep (env : DecodeEnv) (st : SrvState) (sid : ℕ) (m : Msg) : SrvState :=
  if st.alive sid then
    let o := wsHandleMsg env m (st.locals sid) st.det
    ⟨o.det, Function.update st.locals sid o.locals,
     Function.update st.alive sid o.alive,
     st.dets ++ o.dets.map (fun d => (sid, d))⟩
  else st

/-- Run an interleaved schedule of (session, message) steps. -/
def srvRun (env : DecodeEnv) : List (ℕ × Msg) → SrvState → SrvState
  | [], st => st
  | (sid, m) :: sch, st => srvRun env sch (srvStep env st sid m)

/-- The messages of the schedule that belong to session `sid`, in order. -/
def projMsgs (sid : ℕ) (sch : List (ℕ × Msg)) : List Msg :=
  (sch.filter (fun e => e.1 = sid)).map Prod.snd

/-- The detection parameter pairs used by session `sid`'s detections, in
order, as recorded in the server log. -/
def sessionDets (sid : ℕ) (st : SrvState) : List (ℚ × ℤ) :=
  (st.dets.filter (fun e => e.1 = sid)).map Prod.snd

/-! ### Detection parameter validation (spec §4.1)

`FaceDetector.set_detection_params` lives in `utils/detector.py`, which is
not part of the sources here (only its call sites in `app.py` are), so the
validating update is modelled from the spec. -/

/-- Modelled from the spec: the `DetectionParams` container of spec §3 —
`utils/detector.py` (`FaceDetector`'s parameter state) is absent from the
sources.  `scaleFactor`, `minNeighbors`, `minSize`, optional `maxSize`. -/
structure DetectionParams where
  scaleFactor : ℚ
  minNeighbors : ℤ
  minSize : ℤ × ℤ
  maxSize : Option (ℤ × ℤ)
  deriving Repr, DecidableEq

/-- A partial parameter update: only the supplied fields are applied
(spec §4.1 `update(partial)`). -/
structure ParamsUpdate where
  scaleFactor : Option ℚ := none
  minNeighbors : Option ℤ := none
  minSize : Option (ℤ × ℤ) := none
  maxSize : Option (Option (ℤ × ℤ)) := none

/-- Modelled from the spec: apply only the supplied fields of a partial
update, leaving the others unchanged (spec §4.1). -/
def applyUpdate (p : DetectionParams) (u : ParamsUpdate) : DetectionParams :=
  ⟨u.scaleFactor.getD p.scaleFactor, u.minNeighbors.getD p.minNeighbors,
   u.minSize.getD p.minSize, u.maxSize.getD p.maxSize⟩

/-- Modelled from the spec: `validate()` succeeds iff `scaleFactor > 1.0`,
no size dimension is negative, and `maxSize`, if present, dominates
`minSize` in both axes (spec §4.1). -/
def paramsValid (p : DetectionParams) : Bool :=
  decide (1 < p.scaleFactor) && decide (0 ≤ p.minSize.1) && decide (0 ≤ p.minSize.2) &&
    match p.maxSize with
    | none => true
    | some (w, h) =>
      decide (0 ≤ w) && decide (0 ≤ h) && decide (p.minSize.1 ≤ w) && decide (p.minSize.2 ≤ h)

/-- The parameter-update failure of spec §7. -/
inductive ParamErr where
  | invalidParameter
  deriving Repr, DecidableEq

/-- Modelled from the spec: `utils/detector.py`'s
`FaceDetector.set_detection_params` — atomic update-or-reject (spec §4.1):
apply the supplied fields, re-validate; on failure return the prior state
unchanged together with `InvalidParameter`, on success the new state. -/
def set_detection_params (p : DetectionParams) (u : ParamsUpdate) :
    DetectionParams × Option ParamErr :=
  let p' := applyUpdate p u
  if paramsValid p' then (p', none) else (p, some .invalidParameter)

/-! ### Display-loop controllers (`face_detector.py`, `run_webcam`
lines 94-177 and `run_video` lines 246-372)

Per-iteration stimuli (frame availability, whether the detector raises,
the key read by `cv2.waitKey`) are an input script; the loop consumes the
script one iteration at a time.  An exhausted script means the loop is
still running (`LoopEnd.running`) — the `finally` block has not run yet. -/

/-- Keys handled by the loops: `q` quits, `p` toggles pause (video only),
`s` saves a screenshot (webcam only); anything else is ignored. -/
inductive VKey where
  | q
  | p
  | s
  | other
  deriving Repr, DecidableEq

/-- One iteration's external stimuli: did `cap.read()` return a frame, did
the detector raise, and which key `cv2.waitKey` reported. -/
structure VidIn where
  readOk : Bool := true
  procRaises : Bool := false
  key : VKey := .other
  deriving Repr, DecidableEq

/-- Observable resource events of a loop run. -/
inductive VidEv where
  | read
  | detect
  | disp
  | writeSink
  | screenshot
  | releaseSource
  | releaseSink
  deriving Repr, DecidableEq

/-- How the `while True` loop ended: `quit` (key `q`), `eos` (`cap.read()`
returned no frame: end of file or capture failure), `excn` (an exception
escaped the loop body), or `running` (script exhausted, loop not ended). -/
inductive LoopEnd where
  | quit
  | eos
  | excn
  | running
  deriving Repr, DecidableEq

/-- Loop state of `run_video`: `frame_count` (line 300) and `paused`
(line 301). -/
structure VidSt where
  frameCount : ℕ
  paused : Bool
  deriving Repr, DecidableEq

/-- One iteration of `run_video`'s loop (lines 305-359).  When paused, the
body from `cap.read()` through `out.write` is skipped entirely (the `if not
paused:` guard at line 306) and only the keyboard is polled; otherwise the
frame is read (`eos` break on failure, line 309), `frame_count` increments
(line 313), the frame is detected/displayed/recorded, and then the key is
handled (`q` breaks, `p` toggles pause). -/
def videoStep (saveOut : Bool) (i : VidIn) (s : VidSt) :
    List VidEv × VidSt × Option LoopEnd :=
  if s.paused then
    match i.key with
    | .q => ([], s, some .quit)
    | .p => ([], ⟨s.frameCount, false⟩, none)
    | _ => ([], s, none)
  else if !i.readOk then
    ([.read], s, some .eos)
  else if i.procRaises then
    ([.read], ⟨s.frameCount + 1, s.paused⟩, some .excn)
  else
    let evs := [.read, .detect, .disp] ++ if saveOut then [.writeSink] else []
    let s1 : VidSt := ⟨s.frameCount + 1, s.paused⟩
    match i.key with
    | .q => (evs, s1, some .quit)
    | .p => (evs, ⟨s1.frameCount, true⟩, none)
    | _ => (evs, s1, none)

/-- `run_video`'s `while True` loop over an input script. -/
def videoLoop (saveOut : Bool) : List VidIn → VidSt → List VidEv × VidSt × LoopEnd
  | [], s => ([], s, .running)
  | i :: rest, s =>
    match videoStep saveOut i s with
    | (evs, s', some e) => (evs, s', e)
    | (evs, s', none) =>
      let (evs2, s2, e2) := videoLoop saveOut rest s'
      (evs ++ evs2, s2, e2)

/-- `FaceDetectionApp.run_video` (lines 246-372): the loop inside
`try`, and the `finally` block (lines 361-365) — `cap.release()` then
`out.release()` when recording — which runs as soon as the loop ends for
any reason (`break` on quit or end-of-stream, or an escaping exception),
and has not yet run while the loop is still running. -/
def run_video (saveOut : Bool) (ins : List VidIn) : List VidEv × VidSt × LoopEnd :=
  let (evs, s, e) := videoLoop saveOut ins ⟨0, false⟩
  match e with
  | .running => (evs, s, .running)
  | e => (evs ++ [.releaseSource] ++ (if saveOut then [.releaseSink] else []), s, e)

/-- One iteration of `run_webcam`'s loop (lines 134-170): read (break with
a capture error on failure, lines 137-139), detect/display/record, then
handle the key (`q` breaks, `s` writes a screenshot). -/
def webcamStep (saveOut : Bool) (i : VidIn) : List VidEv × Option LoopEnd :=
  if !i.readOk then
    ([.read], some .eos)
  else if i.procRaises then
    ([.read], some .excn)
  else
    let evs := [.read, .detect, .disp] ++ if saveOut then [.writeSink] else []
    match i.key with
    | .q => (evs, some .quit)
    | .s => (evs ++ [.screenshot], none)
    | _ => (evs, none)

/-- `run_webcam`'s `while True` loop over an input script. -/
def webcamLoop (saveOut : Bool) : List VidIn → List VidEv × LoopEnd
  | [] => ([], .running)
  | i :: rest =>
    match webcamStep saveOut i with
    | (evs, some e) => (evs, e)
    | (evs, none) =>
      let (evs2, e2) := webcamLoop saveOut rest
      (evs ++ evs2, e2)

/-- `FaceDetectionApp.run_webcam` (lines 94-177): the loop inside `try` and
the `finally` block (lines 172-177) — `cap.release()` then `out.release()`
when recording — on every loop exit. -/
def run_webcam (saveOut : Bool) (ins : List VidIn) : List VidEv × LoopEnd :=
  let (evs, e) := webcamLoop saveOut ins
  match e with
  | .running => (evs, .running)
  | e => (evs ++ [.releaseSource] ++ (if saveOut then [.releaseSink] else []), e)

/-- A concrete instance of the external decode/detect boundary, used to
evaluate the session embedding at explicit inputs: the payload `"ok"` is
valid base64 of a decodable image, `"img0"` is valid base64 of bytes that
do NOT decode to an image (`cv2.imdecode` returns `None`), and every other
payload makes `base64.b64decode` raise. -/
def testEnv : DecodeEnv where
  b64decode p :=
    if p = "ok".toList then some [1]
    else if p = "img0".toList then some [2]
    else none
  imdecode bs := if bs = [1] then some 0 else none
  detectFaces _ _ _ := []

/-! ## Theorems -/

/-- C5: a `_update_fps` call with less than one second elapsed since the
window start leaves `current_fps` unchanged (only the frame counter grows)
and returns the held value; a call with elapsed ≥ 1.0 s sets `current_fps`
to the incremented in-window frame count divided by the elapsed time,
zeroes the counter, restarts the window at `now`, and returns the newly
computed value. -/
theorem c5_fps_tick (now : ℚ) (s : FpsState) :
    (now - s.fpsStartTime < 1 →
      updateFps now s = (⟨s.fpsStartTime, s.fpsFrameCount + 1, s.currentFps⟩, s.currentFps)) ∧
    (1 ≤ now - s.fpsStartTime →
      updateFps now s =
        (⟨now, 0, (s.fpsFrameCount + 1 : ℚ) / (now - s.fpsStartTime)⟩,
         (s.fpsFrameCount + 1 : ℚ) / (now - s.fpsStartTime))) := by
  constructor
  · intro h
    simp [updateFps, not_le.mpr h]
  · intro h
    simp [updateFps, h]

theorem c5_fps_tick_witness :
    updateFps (1/2) ⟨0, 3, 7⟩ = (⟨0, 4, 7⟩, 7) ∧
    updateFps 2 ⟨0, 3, 7⟩ = (⟨2, 0, 2⟩, 2) := by
  refine ⟨?_, ?_⟩
  · have h := (c5_fps_tick (1/2) ⟨0, 3, 7⟩).1 (by norm_num)
    simpa using h
  · have h := (c5_fps_tick 2 ⟨0, 3, 7⟩).2 (by norm_num)
    norm_num at h
    simpa using h

/-- Helper for C10: while every tick happens strictly less than one second
after the fixed window start `t0`, the window never closes — the start time
stays `t0`, the counter just accumulates, and `current_fps` stays 0. -/
theorem runFps_hold_zero (t0 : ℚ) :
    ∀ (ts : List ℚ) (k : ℕ), (∀ t ∈ ts, t - t0 < 1) →
      runFps ts ⟨t0, k, 0⟩ = (List.replicate ts.length 0, ⟨t0, k + ts.length, 0⟩) := by
  intro ts
  induction ts with
  | nil => intro k _; simp [runFps]
  | cons t ts ih =>
    intro k h
    have ht : t - t0 < 1 := h t (by simp)
    have hrest : ∀ u ∈ ts, u - t0 < 1 := fun u hu => h u (by simp [hu])
    have hstep : updateFps t ⟨t0, k, 0⟩ = (⟨t0, k + 1, 0⟩, 0) := by
      simp [updateFps, not_le.mpr ht]
    have := ih (k + 1) hrest
    simp only [runFps, hstep, this, List.length_cons, List.replicate_succ]
    have harith : k + 1 + ts.length = k + (ts.length + 1) := by omega
    rw [harith]

/-- C10: with `fps_start_time` initialised to the construction time `t0` and
`current_fps` initialised to 0 (`__init__` lines 73-75), every `_update_fps`
call made strictly before `t0 + 1.0` returns 0 — the FPS overlay reads 0 for
the whole first window. -/
theorem c10_fps_initial_zero (t0 : ℚ) (ts : List ℚ) (h : ∀ t ∈ ts, t - t0 < 1) :
    (runFps ts (initFps t0)).1 = List.replicate ts.length 0 := by
  have := runFps_hold_zero t0 ts 0 h
  simp [initFps, this]

theorem c10_fps_initial_zero_witness :
    (runFps [1/4, 1/2, 3/4] (initFps 0)).1 = [0, 0, 0] := by
  have h := c10_fps_initial_zero 0 [1/4, 1/2, 3/4] (by intro t ht; fin_cases ht <;> norm_num)
  simpa using h

/-- C6 (counterexample): the rendered progress fraction of `run_video`
(line 328) is NOT clamped to `[0, 1]`: with an under-reported total of 1
frame, the second processed frame renders fraction 2. -/
theorem c6_progress_counterexample : progress 2 1 = 2 ∧ ¬ progress 2 1 ≤ 1 := by
  norm_num [progress]

/-- C6 (amended): the progress fraction is the raw ratio
`frame_count / total_frames` when `total_frames > 0` (else 0), with no
clamping — it can exceed 1 when the container under-reports the frame
count.  It is monotonically non-decreasing from one processed frame to
the next, and (for the reachable values `frame_count ≥ 1`) equals 1
exactly when `frame_count = total_frames`. -/
theorem c6_progress_amended (fc : ℕ) (tf : ℤ) :
    progress fc tf ≤ progress (fc + 1) tf ∧
    (1 ≤ fc → (progress fc tf = 1 ↔ (fc : ℤ) = tf)) := by
  constructor
  · by_cases htf : 0 < tf
    · have htfq : (0 : ℚ) < (tf : ℚ) := by exact_mod_cast htf
      simp only [progress, if_pos htf]
      rw [div_le_div_iff_of_pos_right htfq]
      exact_mod_cast Nat.le_succ fc
    · simp [progress, htf]
  · intro hfc
    by_cases htf : 0 < tf
    · have htfq : (tf : ℚ) ≠ 0 := by
        have : (0 : ℚ) < (tf : ℚ) := by exact_mod_cast htf
        exact ne_of_gt this
      simp only [progress, if_pos htf]
      rw [div_eq_one_iff_eq htfq]
      exact_mod_cast Iff.rfl
    · have h1 : progress fc tf = 0 := by simp [progress, htf]
      have h2 : ¬ ((fc : ℤ) = tf) := by omega
      simp [h1, h2]

theorem c6_progress_amended_witness :
    progress 2 2 ≤ progress 3 2 ∧ (progress 2 2 = 1 ↔ ((2 : ℕ) : ℤ) = 2) :=
  ⟨(c6_progress_amended 2 2).1, (c6_progress_amended 2 2).2 (by norm_num)⟩

/-- Helper: splitting a comma-free string yields the single field. -/
theorem splitComma_no_comma (s : List Char) (h : ',' ∉ s) : splitComma s = [s] := by
  induction s with
  | nil => rfl
  | cons c cs ih =>
    have hc : ¬ c = ',' := fun hcc => h (by simp [hcc])
    have hcs : ',' ∉ cs := fun hm => h (by simp [hm])
    simp [splitComma, hc, ih hcs]

/-- Helper: `split` never yields an empty field list. -/
theorem splitComma_ne_nil (s : List Char) : splitComma s ≠ [] := by
  cases s with
  | nil => simp [splitComma]
  | cons c cs =>
    by_cases hc : c = ','
    · simp [splitComma, hc]
    · simp only [splitComma, if_neg hc]
      cases splitComma cs <;> simp

/-- C9 (counterexample): on the payload `"a,b,c"` the code keeps only the
field between the first and the second comma (`split(",")[1] == "b"`),
whereas the claim's "remainder after the first comma" is `"b,c"`. -/
theorem c9_strip_counterexample :
    stripFrameData "a,b,c".toList = "b".toList ∧
    stripSpecFirstComma "a,b,c".toList = "b,c".toList ∧
    stripFrameData "a,b,c".toList ≠ stripSpecFirstComma "a,b,c".toList := by
  refine ⟨by decide, by decide, by decide⟩

/-- C9 (amended): the code takes `split(",")[1]`, the field between the
first and second commas; this agrees with the claimed "strip the prefix up
to the first comma" exactly on payloads with at most one comma (in
particular a payload with no comma is kept whole), and differs once a
second comma appears. -/
theorem c9_strip_amended (s : List Char) (h : s.count ',' ≤ 1) :
    stripFrameData s = stripSpecFirstComma s := by
  induction s with
  | nil => rfl
  | cons c cs ih =>
    by_cases hc : c = ','
    · subst hc
      have hcs : ',' ∉ cs := by
        intro hm
        have : 1 ≤ cs.count ',' := List.one_le_count_iff.mpr hm
        simp [List.count_cons] at h
        omega
      have hsplit : splitComma (',' :: cs) = [] :: [cs] := by
        simp [splitComma, splitComma_no_comma cs hcs]
      simp [stripFrameData, stripSpecFirstComma, hsplit, afterFirstComma]
    · have hcount : cs.count ',' ≤ 1 := by
        have := List.count_cons (',') c cs
        simp [List.count_cons, hc] at h ⊢
        omega
      by_cases hmem : ',' ∈ cs
      · have hmemc : ',' ∈ c :: cs := by simp [hmem]
        obtain ⟨t, ts, hsp⟩ : ∃ t ts, splitComma cs = t :: ts := by
          cases hspc : splitComma cs with
          | nil => exact absurd hspc (splitComma_ne_nil cs)
          | cons t ts => exact ⟨t, ts, rfl⟩
        have hsplit : splitComma (c :: cs) = (c :: t) :: ts := by
          simp [splitComma, hc, hsp]
        have hih := ih hcount
        simp only [stripFrameData, stripSpecFirstComma, if_pos hmemc, if_pos hmem,
          hsplit, hsp, afterFirstComma, if_neg hc] at hih ⊢
        exact hih
      · have hmemc : ',' ∉ c :: cs := by
          simp only [List.mem_cons, not_or]
          exact ⟨fun hcc => hc hcc.symm, hmem⟩
        simp [stripFrameData, stripSpecFirstComma, hmemc]

theorem c9_strip_amended_witness :
    "data:image/png;base64,QUJD".toList.count ',' ≤ 1 ∧
    stripFrameData "data:image/png;base64,QUJD".toList =
      stripSpecFirstComma "data:image/png;base64,QUJD".toList :=
  ⟨by decide, c9_strip_amended "data:image/png;base64,QUJD".toList (by decide)⟩

/-- Helper: unfolding of the spec-modelled `validate()` predicate. -/
theorem paramsValid_iff (q : DetectionParams) :
    paramsValid q = true ↔
      (1 < q.scaleFactor ∧ 0 ≤ q.minSize.1 ∧ 0 ≤ q.minSize.2 ∧
        ∀ ms ∈ q.maxSize,
          0 ≤ ms.1 ∧ 0 ≤ ms.2 ∧ q.minSize.1 ≤ ms.1 ∧ q.minSize.2 ≤ ms.2) := by
  rcases q with ⟨sf, mn, ⟨mw, mh⟩, ms⟩
  cases ms with
  | none => simp [paramsValid, and_assoc]
  | some m =>
    rcases m with ⟨w, h⟩
    simp [paramsValid, and_assoc]

/-- C3: the spec-modelled parameter update is atomic update-or-reject: when
the combined values are invalid (`scaleFactor ≤ 1.0`, a negative size
dimension, or `maxSize` present and smaller than `minSize` in either axis)
it fails with `InvalidParameter` and returns every previously held value
unchanged; when they are valid it succeeds and the resulting state holds
exactly the supplied fields (prior values for omitted fields). -/
theorem c3_set_params_atomic (p : DetectionParams) (u : ParamsUpdate) :
    (((applyUpdate p u).scaleFactor ≤ 1 ∨
        (applyUpdate p u).minSize.1 < 0 ∨ (applyUpdate p u).minSize.2 < 0 ∨
        (∃ ms ∈ (applyUpdate p u).maxSize,
          ms.1 < 0 ∨ ms.2 < 0 ∨
          ms.1 < (applyUpdate p u).minSize.1 ∨ ms.2 < (applyUpdate p u).minSize.2)) →
      set_detection_params p u = (p, some ParamErr.invalidParameter)) ∧
    (¬ ((applyUpdate p u).scaleFactor ≤ 1 ∨
        (applyUpdate p u).minSize.1 < 0 ∨ (applyUpdate p u).minSize.2 < 0 ∨
        (∃ ms ∈ (applyUpdate p u).maxSize,
          ms.1 < 0 ∨ ms.2 < 0 ∨
          ms.1 < (applyUpdate p u).minSize.1 ∨ ms.2 < (applyUpdate p u).minSize.2)) →
      set_detection_params p u =
        (⟨u.scaleFactor.getD p.scaleFactor, u.minNeighbors.getD p.minNeighbors,
          u.minSize.getD p.minSize, u.maxSize.getD p.maxSize⟩, none)) := by
  constructor
  · intro hinv
    have hnv : ¬ paramsValid (applyUpdate p u) = true := by
      rw [paramsValid_iff]
      rintro ⟨h1, h2, h3, h4⟩
      rcases hinv with h | h | h | ⟨ms, hms, h⟩
      · linarith
      · omega
      · omega
      · obtain ⟨g1, g2, g3, g4⟩ := h4 ms hms
        rcases h with h | h | h | h <;> omega
    simp [set_detection_params, hnv]
  · intro hninv
    push_neg at hninv
    obtain ⟨h1, h2, h3, h4⟩ := hninv
    have hv : paramsValid (applyUpdate p u) = true := by
      rw [paramsValid_iff]
      refine ⟨h1, h2, h3, ?_⟩
      intro ms hms
      obtain ⟨g1, g2, g3, g4⟩ := h4 ms hms
      exact ⟨g1, g2, g3, g4⟩
    have hres : set_detection_params p u = (applyUpdate p u, none) := by
      simp [set_detection_params, hv]
    rw [hres]
    rfl

theorem c3_set_params_atomic_witness :
    set_detection_params ⟨11/10, 5, (30, 30), none⟩
        ⟨some (1/2), none, none, none⟩ =
      (⟨11/10, 5, (30, 30), none⟩, some ParamErr.invalidParameter) ∧
    set_detection_params ⟨11/10, 5, (30, 30), none⟩
        ⟨some (6/5), some 3, none, some (some (40, 40))⟩ =
      (⟨6/5, 3, (30, 30), some (40, 40)⟩, none) := by
  constructor
  · exact (c3_set_params_atomic ⟨11/10, 5, (30, 30), none⟩
      ⟨some (1/2), none, none, none⟩).1 (by norm_num [applyUpdate])
  · have h := (c3_set_params_atomic ⟨11/10, 5, (30, 30), none⟩
      ⟨some (6/5), some 3, none, some (some (40, 40))⟩).2 (by norm_num [applyUpdate])
    simpa using h

/-- C2 (counterexample): in a session holding the default parameters, a
message whose frame payload is not valid base64 (here `"bad"`, followed by
a perfectly valid message) produces NO response at all — in particular no
`DecodeError`-shaped one — the receive loop dies on the raised exception,
and the next valid message is never processed (no detection ever runs). -/
theorem c2_bad_frame_counterexample :
    (wsRun testEnv [⟨none, none, some "bad".toList⟩, ⟨none, none, some "ok".toList⟩]
        wsInitLocals (11/10, 5)).sent = [] ∧
    (wsRun testEnv [⟨none, none, some "bad".toList⟩, ⟨none, none, some "ok".toList⟩]
        wsInitLocals (11/10, 5)).dets = [] ∧
    (wsRun testEnv [⟨none, none, some "bad".toList⟩, ⟨none, none, some "ok".toList⟩]
        wsInitLocals (11/10, 5)).alive = false := ⟨rfl, rfl, rfl⟩

/-- C2 (amended): a frame payload whose base64 decode raises terminates the
session loop through the outer exception handler with no response sent for
that message, and the remaining inbound messages are never processed; a
payload that base64-decodes but fails image decoding (`cv2.imdecode`
returns `None`) produces no response for that message, and the session
continues with the next message exactly as if the bad frame had not been
sent (parameter keys of the bad message are still applied first). -/
theorem c2_bad_frame_behavior (env : DecodeEnv) (locals det : ℚ × ℤ)
    (osf : Option ℚ) (omn : Option ℤ) (p : List Char) (rest : List Msg) :
    (env.b64decode (stripFrameData p) = none →
      wsRun env (⟨osf, omn, some p⟩ :: rest) locals det =
        ⟨[], [], (osf.getD locals.1, omn.getD locals.2), det, false⟩) ∧
    (∀ bs, env.b64decode (stripFrameData p) = some bs → env.imdecode bs = none →
      wsRun env (⟨osf, omn, some p⟩ :: rest) locals det =
        wsRun env rest (osf.getD locals.1, omn.getD locals.2) det) := by
  constructor
  · intro h
    simp [wsRun, wsHandleMsg, h]
  · intro bs hbs him
    simp only [wsRun, wsHandleMsg, hbs, him]
    rfl

theorem c2_bad_frame_behavior_witness :
    testEnv.b64decode (stripFrameData "bad".toList) = none ∧
    wsRun testEnv [⟨none, none, some "bad".toList⟩, ⟨none, none, some "ok".toList⟩]
        wsInitLocals (11/10, 5) =
      ⟨[], [], wsInitLocals, (11/10, 5), false⟩ ∧
    wsRun testEnv [⟨none, none, some "img0".toList⟩, ⟨none, none, some "ok".toList⟩]
        wsInitLocals (11/10, 5) =
      wsRun testEnv [⟨none, none, some "ok".toList⟩] wsInitLocals (11/10, 5) := by
  refine ⟨rfl, ?_, ?_⟩
  · have h := (c2_bad_frame_behavior testEnv wsInitLocals (11/10, 5) none none
      "bad".toList [⟨none, none, some "ok".toList⟩]).1 rfl
    simpa using h
  · have h := (c2_bad_frame_behavior testEnv wsInitLocals (11/10, 5) none none
      "img0".toList [⟨none, none, some "ok".toList⟩]).2 [2] rfl rfl
    simpa using h

/-- C4: within one session, a message carrying both `scale_factor` and a
decodable frame has the new scale factor applied to the detector BEFORE
that same message's frame is detected (the detection runs with `v`, not
with the previous value), and a following message that omits the
`scale_factor` key is detected with the persisted value `v`. -/
theorem c4_update_then_detect (env : DecodeEnv) (locals det : ℚ × ℤ) (v : ℚ)
    (p q : List Char) (bs bs' : List ℕ) (img img' : ℕ)
    (hb : env.b64decode (stripFrameData p) = some bs)
    (hi : env.imdecode bs = some img)
    (hb' : env.b64decode (stripFrameData q) = some bs')
    (hi' : env.imdecode bs' = some img') :
    (wsRun env [⟨some v, none, some p⟩, ⟨none, none, some q⟩] locals det).dets =
      [(v, locals.2), (v, locals.2)] := by
  simp [wsRun, wsHandleMsg, hb, hi, hb', hi']

theorem c4_update_then_detect_witness :
    (wsRun testEnv [⟨some 2, none, some "ok".toList⟩, ⟨none, none, some "ok".toList⟩]
        wsInitLocals (11/10, 5)).dets = [(2, 5), (2, 5)] := by
  have h := c4_update_then_detect testEnv wsInitLocals (11/10, 5) 2
    "ok".toList "ok".toList [1] [1] 0 0 rfl rfl rfl rfl
  simpa [wsInitLocals] using h

/-- Helper for C1: everything a message handler step produces except the
written-back detector state is independent of the shared detector's
current parameter values — the handler overwrites them (with no
intervening suspension point) before every detection. -/
theorem wsHandleMsg_det_irrel (env : DecodeEnv) (m : Msg) (l d d' : ℚ × ℤ) :
    (wsHandleMsg env m l d).locals = (wsHandleMsg env m l d').locals ∧
    (wsHandleMsg env m l d).sent = (wsHandleMsg env m l d').sent ∧
    (wsHandleMsg env m l d).dets = (wsHandleMsg env m l d').dets ∧
    (wsHandleMsg env m l d).alive = (wsHandleMsg env m l d').alive := by
  rcases m with ⟨osf, omn, of⟩
  cases of with
  | none => simp [wsHandleMsg]
  | some p =>
    cases hb : env.b64decode (stripFrameData p) with
    | none => simp [wsHandleMsg, hb]
    | some bs =>
      cases hi : env.imdecode bs with
      | none => simp [wsHandleMsg, hb, hi]
      | some img => simp [wsHandleMsg, hb, hi]

/-- Helper for C1: the detection-parameter trace of a whole session run is
independent of the detector state the run starts from. -/
theorem wsRun_dets_det_irrel (env : DecodeEnv) :
    ∀ (ms : List Msg) (l d d' : ℚ × ℤ),
      (wsRun env ms l d).dets = (wsRun env ms l d').dets := by
  intro ms
  induction ms with
  | nil => intro l d d'; rfl
  | cons m rest ih =>
    intro l d d'
    obtain ⟨hl, hs, hd, ha⟩ := wsHandleMsg_det_irrel env m l d d'
    simp only [wsRun]
    rw [ha]
    by_cases halive : (wsHandleMsg env m l d').alive = true
    · simp only [halive, if_true]
      rw [hd, hl, ih (wsHandleMsg env m l d').locals
        (wsHandleMsg env m l d).det (wsHandleMsg env m l d').det]
    · simp only [Bool.not_eq_true] at halive
      simp only [halive, Bool.false_eq_true, if_false]
      rw [hd]

/-- Helper for C1: selecting one session's entries from a freshly tagged
block. -/
theorem filter_tag_map (l : List (ℚ × ℤ)) (i sid : ℕ) :
    ((l.map (fun dd => (i, dd))).filter (fun e => e.1 = sid)).map Prod.snd =
      if i = sid then l else [] := by
  induction l with
  | nil => simp
  | cons x xs ih =>
    by_cases h : i = sid
    · simp [h] at ih ⊢
      exact ih
    · simp [h] at ih ⊢
      exact ih

/-- Helper for C1: the detections logged for session `sid` by an interleaved
schedule equal its prior log plus the detections of an isolated run of
`sid`'s own messages (any starting detector state), provided `sid` is still
connected. -/
theorem srvRun_dets_aux (env : DecodeEnv) :
    ∀ (sch : List (ℕ × Msg)) (st : SrvState) (sid : ℕ) (d : ℚ × ℤ),
      sessionDets sid (srvRun env sch st) =
        sessionDets sid st ++
          (if st.alive sid then (wsRun env (projMsgs sid sch) (st.locals sid) d).dets
           else []) := by
  intro sch
  induction sch with
  | nil =>
    intro st sid d
    simp [srvRun, projMsgs, wsRun]
  | cons im sch ih =>
    obtain ⟨i, m⟩ := im
    intro st sid d
    by_cases hal : st.alive i = true
    · have hstep : srvStep env st i m =
          ⟨(wsHandleMsg env m (st.locals i) st.det).det,
           Function.update st.locals i (wsHandleMsg env m (st.locals i) st.det).locals,
           Function.update st.alive i (wsHandleMsg env m (st.locals i) st.det).alive,
           st.dets ++ (wsHandleMsg env m (st.locals i) st.det).dets.map (fun dd => (i, dd))⟩ := by
        simp [srvStep, hal]
      simp only [srvRun, hstep]
      rw [ih _ sid d]
      by_cases hisid : i = sid
      · subst hisid
        obtain ⟨hl, _, hd, ha⟩ :=
          wsHandleMsg_det_irrel env m (st.locals i) st.det d
        simp only [sessionDets, List.filter_append, List.map_append,
          filter_tag_map, if_pos rfl, Function.update_same]
        simp only [projMsgs, List.filter_cons, decide_eq_true_eq, if_pos rfl,
          List.map_cons]
        simp only [wsRun]
        rw [← hl, ← hd, ← ha]
        by_cases halo : (wsHandleMsg env m (st.locals i) st.det).alive = true
        · simp only [halo, if_true, if_pos hal]
          rw [wsRun_dets_det_irrel env _ _ (wsHandleMsg env m (st.locals i) d).det d]
          simp [List.append_assoc]
        · simp only [Bool.not_eq_true] at halo
          simp [halo, hal]
      · have hsidne : ¬ sid = i := fun h => hisid h.symm
        simp only [sessionDets, List.filter_append, List.map_append,
          filter_tag_map, if_neg hisid, Function.update_apply, if_neg hsidne]
        simp only [projMsgs, List.filter_cons, decide_eq_true_eq, if_neg hisid]
        simp [sessionDets, projMsgs]
    · have hstep : srvStep env st i m = st := by simp [srvStep, hal]
      simp only [srvRun, hstep]
      rw [ih st sid d]
      by_cases hisid : i = sid
      · subst hisid
        have hfalse : st.alive i = false := by simpa using hal
        simp [projMsgs, hfalse]
      · simp [projMsgs, hisid]

/-- C1 (counterexample): sessions do NOT hold independent detector-parameter
instances.  `app.py` line 51 creates one module-global `detector`, embedded
as the single shared `SrvState.det` field that every session's handler step
reads and writes.  After session 0 processes one message setting
`scale_factor = 2` with a valid frame, that shared parameter state — the
very state the next handler step of any other session receives — holds
`(2, 5)`, no longer the `(1.1, 5)` it held before session 0's update. -/
theorem c1_shared_detector_counterexample :
    (initSrv (11/10, 5)).det = ((11/10 : ℚ), (5 : ℤ)) ∧
    (srvRun testEnv [(0, ⟨some 2, none, some "ok".toList⟩)]
        (initSrv (11/10, 5))).det = ((2 : ℚ), (5 : ℤ)) ∧
    ((2 : ℚ), (5 : ℤ)) ≠ ((11/10 : ℚ), (5 : ℤ)) := by
  refine ⟨rfl, rfl, by norm_num [Prod.ext_iff]⟩

/-- C1 (amended): although every session writes the one shared global
detector, a parameter update processed by one session is never observable
in another session's detections: each handler re-applies its own session
locals to the shared detector immediately before detecting, with no
suspension point in between, so under every interleaved schedule the
detection parameters used by session `sid` are exactly those of an
isolated run of `sid`'s own messages (independently of any initial
detector state `d0`/`d1`). -/
theorem c1_session_noninterference (env : DecodeEnv) (sch : List (ℕ × Msg))
    (sid : ℕ) (d0 d1 : ℚ × ℤ) :
    sessionDets sid (srvRun env sch (initSrv d0)) =
      (wsRun env (projMsgs sid sch) wsInitLocals d1).dets := by
  have h := srvRun_dets_aux env sch (initSrv d0) sid d1
  simpa [sessionDets, initSrv] using h

/-- Helper for C7: no iteration of the video loop body emits a release
event — releases happen only in the `finally` block. -/
theorem videoStep_no_release (saveOut : Bool) (i : VidIn) (s : VidSt) :
    VidEv.releaseSource ∉ (videoStep saveOut i s).1 ∧
    VidEv.releaseSink ∉ (videoStep saveOut i s).1 := by
  rcases i with ⟨ro, pr, k⟩
  unfold videoStep
  by_cases hp : s.paused = true <;> cases k <;> cases ro <;> cases pr <;>
    by_cases hs : saveOut = true <;> simp_all

/-- Helper for C7: the whole video loop emits no release events. -/
theorem videoLoop_no_release (saveOut : Bool) :
    ∀ (ins : List VidIn) (s : VidSt),
      VidEv.releaseSource ∉ (videoLoop saveOut ins s).1 ∧
      VidEv.releaseSink ∉ (videoLoop saveOut ins s).1 := by
  intro ins
  induction ins with
  | nil => intro s; simp [videoLoop]
  | cons i rest ih =>
    intro s
    obtain ⟨h1, h2⟩ := videoStep_no_release saveOut i s
    rcases hstep : videoStep saveOut i s with ⟨evs, s', oe⟩
    rw [hstep] at h1 h2
    cases oe with
    | some e => simp only [videoLoop, hstep]; exact ⟨h1, h2⟩
    | none =>
      obtain ⟨g1, g2⟩ := ih s'
      simp only [videoLoop, hstep]
      constructor <;> simp_all

/-- Helper for C7: no iteration of the webcam loop body emits a release
event. -/
theorem webcamStep_no_release (saveOut : Bool) (i : VidIn) :
    VidEv.releaseSource ∉ (webcamStep saveOut i).1 ∧
    VidEv.releaseSink ∉ (webcamStep saveOut i).1 := by
  rcases i with ⟨ro, pr, k⟩
  unfold webcamStep
  cases k <;> cases ro <;> cases pr <;>
    by_cases hs : saveOut = true <;> simp_all

/-- Helper for C7: the whole webcam loop emits no release events. -/
theorem webcamLoop_no_release (saveOut : Bool) :
    ∀ (ins : List VidIn),
      VidEv.releaseSource ∉ (webcamLoop saveOut ins).1 ∧
      VidEv.releaseSink ∉ (webcamLoop saveOut ins).1 := by
  intro ins
  induction ins with
  | nil => simp [webcamLoop]
  | cons i rest ih =>
    obtain ⟨h1, h2⟩ := webcamStep_no_release saveOut i
    rcases hstep : webcamStep saveOut i with ⟨evs, oe⟩
    rw [hstep] at h1 h2
    cases oe with
    | some e => simp only [webcamLoop, hstep]; exact ⟨h1, h2⟩
    | none =>
      obtain ⟨g1, g2⟩ := ih
      simp only [webcamLoop, hstep]
      constructor <;> simp_all

/-- C7: whenever a video or webcam run terminates — quit key, end of
stream / capture failure, or an exception escaping the loop body,
including a quit received while paused — the emitted event trace releases
the frame source exactly once and releases the file-writer sink exactly
once when one is attached (`save_output`), never otherwise (the `finally`
blocks at `face_detector.py` lines 361-365 and 172-177). -/
theorem c7_release_once (saveOut : Bool) (insV insW : List VidIn)
    (hV : (run_video saveOut insV).2.2 ≠ LoopEnd.running)
    (hW : (run_webcam saveOut insW).2 ≠ LoopEnd.running) :
    ((run_video saveOut insV).1.count VidEv.releaseSource = 1 ∧
     (run_video saveOut insV).1.count VidEv.releaseSink =
       (if saveOut then 1 else 0)) ∧
    ((run_webcam saveOut insW).1.count VidEv.releaseSource = 1 ∧
     (run_webcam saveOut insW).1.count VidEv.releaseSink =
       (if saveOut then 1 else 0)) := by
  constructor
  · rcases hloop : videoLoop saveOut insV ⟨0, false⟩ with ⟨evs, sEnd, e⟩
    obtain ⟨h1, h2⟩ := videoLoop_no_release saveOut insV ⟨0, false⟩
    rw [hloop] at h1 h2
    have hc1 : evs.count VidEv.releaseSource = 0 := List.count_eq_zero.mpr h1
    have hc2 : evs.count VidEv.releaseSink = 0 := List.count_eq_zero.mpr h2
    cases e with
    | running => exfalso; apply hV; simp [run_video, hloop]
    | quit =>
      simp only [run_video, hloop]
      cases saveOut <;> simp [List.count_append, hc1, hc2]
    | eos =>
      simp only [run_video, hloop]
      cases saveOut <;> simp [List.count_append, hc1, hc2]
    | excn =>
      simp only [run_video, hloop]
      cases saveOut <;> simp [List.count_append, hc1, hc2]
  · rcases hloop : webcamLoop saveOut insW with ⟨evs, e⟩
    obtain ⟨h1, h2⟩ := webcamLoop_no_release saveOut insW
    rw [hloop] at h1 h2
    have hc1 : evs.count VidEv.releaseSource = 0 := List.count_eq_zero.mpr h1
    have hc2 : evs.count VidEv.releaseSink = 0 := List.count_eq_zero.mpr h2
    cases e with
    | running => exfalso; apply hW; simp [run_webcam, hloop]
    | quit =>
      simp only [run_webcam, hloop]
      cases saveOut <;> simp [List.count_append, hc1, hc2]
    | eos =>
      simp only [run_webcam, hloop]
      cases saveOut <;> simp [List.count_append, hc1, hc2]
    | excn =>
      simp only [run_webcam, hloop]
      cases saveOut <;> simp [List.count_append, hc1, hc2]

theorem c7_release_once_witness :
    (run_video true [⟨true, false, .p⟩, ⟨true, false, .q⟩]).2.2 ≠ LoopEnd.running ∧
    (run_webcam true [⟨true, false, .q⟩]).2 ≠ LoopEnd.running ∧
    ((run_video true [⟨true, false, .p⟩, ⟨true, false, .q⟩]).1.count
        VidEv.releaseSource = 1 ∧
     (run_video true [⟨true, false, .p⟩, ⟨true, false, .q⟩]).1.count
        VidEv.releaseSink = 1) ∧
    ((run_webcam true [⟨true, false, .q⟩]).1.count VidEv.releaseSource = 1 ∧
     (run_webcam true [⟨true, false, .q⟩]).1.count VidEv.releaseSink = 1) := by
  have h := c7_release_once true [⟨true, false, .p⟩, ⟨true, false, .q⟩]
    [⟨true, false, .q⟩] (by decide) (by decide)
  exact ⟨by decide, by decide, by simpa using h.1, by simpa using h.2⟩

/-- C8: a video-loop iteration that starts paused never polls the source —
no read event is emitted — and leaves `frame_count` unchanged, so no
file-source frame is lost while paused. -/
theorem c8_paused_no_poll (saveOut : Bool) (i : VidIn) (s : VidSt)
    (h : s.paused = true) :
    VidEv.read ∉ (videoStep saveOut i s).1 ∧
    (videoStep saveOut i s).2.1.frameCount = s.frameCount := by
  rcases i with ⟨ro, pr, k⟩
  unfold videoStep
  cases k <;> simp [h]

theorem c8_paused_no_poll_witness :
    (⟨3, true⟩ : VidSt).paused = true ∧
    VidEv.read ∉ (videoStep true ⟨true, false, .q⟩ ⟨3, true⟩).1 ∧
    (videoStep true ⟨true, false, .q⟩ ⟨3, true⟩).2.1.frameCount = 3 :=
  ⟨rfl, (c8_paused_no_poll true ⟨true, false, .q⟩ ⟨3, true⟩ rfl).1,
   (c8_paused_no_poll true ⟨true, false, .q⟩ ⟨3, true⟩ rfl).2⟩
